import Mathlib

/-!
Verification of the task-assignment and lifecycle-reconciliation core of the
automated-dev-agents repository, as a shallow embedding in Lean 4.

The embedding follows the Python sources:
  src/core/task.py          (Task, TaskQueue)
  src/core/agent.py         (Agent)
  src/core/orchestrator.py  (TaskOrchestrator)

Modelling conventions:
  - Python dicts keyed by strings become association lists
    (List (String × α)) with insertion-ordered iteration, lookup on the
    first matching key, and value replacement in place (dictGet / dictSet),
    matching CPython dict semantics for unique keys.
  - Timestamps (datetime.now().isoformat()) become Nat values supplied by
    the caller; uuid-generated identifiers become String parameters.
  - The external memory collaborator (store_short_term, store_long_term,
    update_world_state, get_world_state) is modelled as explicit state
    (Memory).  Each call site that may raise inside a try block takes a
    Bool oracle saying whether the collaborator raises there; the
    surrounding except clause is modelled by returning the state reached
    at the point of the raise.
  - The world-state partition is keyed by fixed templates
    (task_assignment:{id}, task_progress:{id}) whose prefixes are
    disjoint, so it is split into typed partitions keyed by the full
    rendered key string.
-/

namespace ADA

/-- Lookup in a Python dict modelled as an association list: the value at
the first matching key, if any. -/
def dictGet {α : Type} : List (String × α) → String → Option α
  | [], _ => none
  | (k', v) :: tl, k => if k' = k then some v else dictGet tl k

/-- Assignment d[k] = v in a Python dict modelled as an association list:
replace the value at an existing key in place, otherwise append. -/
def dictSet {α : Type} : List (String × α) → String → α → List (String × α)
  | [], k, v => [(k, v)]
  | (k', v') :: tl, k, v =>
      if k' = k then (k', v) :: tl else (k', v') :: dictSet tl k v

/-- A progress record (the progress dict passed to Agent.report_progress and
stored in world state; also the payload handed to the completion and
failure handlers).  status is required by the contract; output and message
are the optional payload fields; reported_at and agent are the stamps
added by report_progress. -/
structure Progress where
  status : String
  output : Option String
  message : Option String
  reported_at : Option Nat
  agent : Option String
deriving DecidableEq, Repr

/-- The assignment record written to world state under
task_assignment:{id} by Agent.assign_task. -/
structure AssignRecord where
  agent : String
  assigned_at : Nat
  status : String
deriving DecidableEq, Repr

/-- Task from src/core/task.py: immutable identity plus mutable lifecycle
fields.  context (Dict[str, Any]) is modelled as a string-keyed
association list with string values. -/
structure Task where
  id : String
  description : String
  requirements : List String
  required_capabilities : List String
  priority : Int
  dependencies : List String
  context : List (String × String)
  status : String
  created_at : Nat
  assigned_to : Option String
  result : Option Progress
deriving DecidableEq, Repr

/-- The dictionary storage representation of a task (the dict produced by
Task.to_dict and consumed by Task.from_dict, also the shape stored in
long-term memory).  Fields that from_dict reads with dict.get are Option
(a missing key and a stored None are both none, exactly as dict.get
reports them).  completed_at and failed_at are the extra keys the
orchestrator handlers add to the long-term snapshot; to_dict never writes
them and from_dict ignores them. -/
structure TaskDict where
  id : String
  description : String
  requirements : List String
  required_capabilities : Option (List String)
  priority : Option Int
  dependencies : Option (List String)
  context : Option (List (String × String))
  status : String
  created_at : Nat
  assigned_to : Option String
  result : Option Progress
  completed_at : Option Nat
  failed_at : Option Nat
deriving DecidableEq, Repr

/-- Task.to_dict: every field stored under its own key. -/
def Task.to_dict (t : Task) : TaskDict :=
  { id := t.id
    description := t.description
    requirements := t.requirements
    required_capabilities := some t.required_capabilities
    priority := some t.priority
    dependencies := some t.dependencies
    context := some t.context
    status := t.status
    created_at := t.created_at
    assigned_to := t.assigned_to
    result := t.result
    completed_at := none
    failed_at := none }

/-- Task.from_dict: the constructor call (whose `x or []` defaulting on a
value read with dict.get collapses to Option.getD [], since an empty list
defaults to the same empty list) followed by the explicit overrides of
id, status, created_at, assigned_to and result. -/
def Task.from_dict (d : TaskDict) : Task :=
  { id := d.id
    description := d.description
    requirements := d.requirements
    required_capabilities := d.required_capabilities.getD []
    priority := d.priority.getD 1
    dependencies := d.dependencies.getD []
    context := d.context.getD []
    status := d.status
    created_at := d.created_at
    assigned_to := d.assigned_to
    result := d.result }

/-- TaskQueue.tasks: a dict from task ID to Task. -/
abbrev TaskQueue := List (String × Task)

/-- TaskQueue.add_task: self.tasks[task.id] = task; return task.id.
There is no duplicate-ID check in the source: an existing entry under the
same ID is silently replaced. -/
def add_task (q : TaskQueue) (task : Task) : String × TaskQueue :=
  (task.id, dictSet q task.id task)

/-- The dependency test inside TaskQueue.get_next_task:
any(self.tasks.get(dep, Task("", [])).status != "completed" for dep in
task.dependencies).  The default Task("", []) is freshly constructed with
status "pending", so a missing dependency ID reads as status "pending"
and counts as unmet. -/
def depsSatisfied (q : TaskQueue) (t : Task) : Bool :=
  ! t.dependencies.any (fun dep =>
      (match dictGet q dep with
       | some d => d.status
       | none => "pending") != "completed")

/-- The capability test inside TaskQueue.get_next_task:
all(cap in agent_capabilities for cap in task.required_capabilities). -/
def capsOk (agent_capabilities : List String) (t : Task) : Bool :=
  t.required_capabilities.all (fun cap => agent_capabilities.contains cap)

/-- Membership in the available_tasks list built by
TaskQueue.get_next_task: pending status, all dependencies completed,
capabilities covered. -/
def isCandidate (q : TaskQueue) (agent_capabilities : List String) (t : Task) : Bool :=
  t.status == "pending" && depsSatisfied q t && capsOk agent_capabilities t

/-- sorted(available_tasks, key=lambda t: t.priority, reverse=True)[0]:
Python sorting is stable and reverse=True preserves the relative order of
equal keys, so the head of the sorted list is the first element of the
original list having maximal priority.  bestOf folds over the tail
keeping the current element unless a strictly higher priority appears. -/
def bestOf (h : Task) (tl : List Task) : Task :=
  tl.foldl (fun best t => if best.priority < t.priority then t else best) h

/-- TaskQueue.get_next_task: filter the queue values (in dict insertion
order) down to the candidates, return None when empty, otherwise the
highest-priority candidate (first such in insertion order). -/
def get_next_task (q : TaskQueue) (agent_capabilities : List String) : Option Task :=
  match (q.map Prod.snd).filter (isCandidate q agent_capabilities) with
  | [] => none
  | h :: tl => some (bestOf h tl)

/-- The updates dict passed to TaskQueue.update_task.  The source applies
setattr for every key that names an existing Task attribute (hasattr
check), so each Task field appears here as an optional update; keys that
are not Task attributes are dropped by the hasattr guard and are not
representable. -/
structure TaskUpdates where
  id : Option String := none
  description : Option String := none
  requirements : Option (List String) := none
  required_capabilities : Option (List String) := none
  priority : Option Int := none
  dependencies : Option (List String) := none
  context : Option (List (String × String)) := none
  status : Option String := none
  created_at : Option Nat := none
  assigned_to : Option (Option String) := none
  result : Option (Option Progress) := none
deriving DecidableEq, Repr

/-- The setattr loop of TaskQueue.update_task applied to one task: every
present key overwrites the corresponding attribute, absent keys leave the
attribute unchanged. -/
def apply_updates (t : Task) (u : TaskUpdates) : Task :=
  { id := u.id.getD t.id
    description := u.description.getD t.description
    requirements := u.requirements.getD t.requirements
    required_capabilities := u.required_capabilities.getD t.required_capabilities
    priority := u.priority.getD t.priority
    dependencies := u.dependencies.getD t.dependencies
    context := u.context.getD t.context
    status := u.status.getD t.status
    created_at := u.created_at.getD t.created_at
    assigned_to := u.assigned_to.getD t.assigned_to
    result := u.result.getD t.result }

/-- TaskQueue.update_task: False and no change when the ID is absent,
otherwise apply the updates to the stored task in place and return
True. -/
def update_task (q : TaskQueue) (task_id : String) (updates : TaskUpdates) :
    Bool × TaskQueue :=
  match dictGet q task_id with
  | none => (false, q)
  | some t => (true, dictSet q task_id (apply_updates t updates))

example : dictGet (dictSet ([] : TaskQueue) "a"
    { id := "a", description := "", requirements := [],
      required_capabilities := [], priority := 1, dependencies := [],
      context := [], status := "pending", created_at := 0,
      assigned_to := none, result := none }) "a" ≠ none := by decide

/-- The state of the external memory collaborator, split into its
partitions.  World-state keys use the disjoint templates
task_assignment:{id} and task_progress:{id}, so the world-state dict is
split into two typed partitions keyed by the full rendered key. -/
structure Memory where
  short_term : List (String × TaskDict)
  long_term : List (String × TaskDict)
  world_assignment : List (String × AssignRecord)
  world_progress : List (String × Progress)
deriving DecidableEq, Repr

/-- Agent from src/core/agent.py: name, derived id, fixed capability
list, the single current-task slot (holding the task dict it was handed),
and the status string. -/
structure Agent where
  name : String
  id : String
  capabilities : List String
  current_task : Option TaskDict
  status : String
deriving DecidableEq, Repr

/-- Agent.__init__: id is name.lower().replace(" ", "_") plus an
underscore and the first eight hex digits of a fresh uuid (supplied here
as the parameter uuid_hex8); status starts idle with no current task.
Lowering then replacing spaces acts independently on each character. -/
def mkAgent (name : String) (capabilities : List String) (uuid_hex8 : String) : Agent :=
  { name := name
    id := String.mk (name.toList.map (fun c => if c = ' ' then '_' else c.toLower))
            ++ "_" ++ uuid_hex8
    capabilities := capabilities
    current_task := none
    status := "idle" }

/-- Agent.assign_task.  Rejects when not idle or when the task has a
nonempty required-capability list not covered by the agent (the Python
guard `required_capabilities and not all(...)`).  Inside the try block:
store_short_term may raise (st_raises) before any agent field changes;
after current_task and status are set, update_world_state may raise
(ws_raises); both raises are caught and yield False, keeping whatever
state was already reached. -/
def assign_task (a : Agent) (task : TaskDict) (m : Memory) (now : Nat)
    (st_raises ws_raises : Bool) : Bool × Agent × Memory :=
  if a.status != "idle" then (false, a, m)
  else
    let rc := task.required_capabilities.getD []
    if !rc.isEmpty && !(rc.all (fun cap => a.capabilities.contains cap)) then
      (false, a, m)
    else if st_raises then (false, a, m)
    else
      let m1 := { m with short_term := dictSet m.short_term ("task:" ++ task.id) task }
      let a1 := { a with current_task := some task, status := "working" }
      if ws_raises then (false, a1, m1)
      else
        let rec0 : AssignRecord := { agent := a.id, assigned_at := now, status := "assigned" }
        let wa := dictSet m1.world_assignment ("task_assignment:" ++ task.id) rec0
        let m2 := { m1 with world_assignment := wa }
        (true, a1, m2)

/-- Agent.report_progress.  A warning no-op without a current task.
Otherwise the record is stamped with reported_at and the agent id and
written to world state under task_progress:{task id}; update_world_state
may raise (ws_raises), which is caught before the status update, leaving
the agent unchanged.  Only a completed or failed status clears the slot
and reverts the status to idle. -/
def report_progress (a : Agent) (progress : Progress) (m : Memory) (now : Nat)
    (ws_raises : Bool) : Agent × Memory :=
  match a.current_task with
  | none => (a, m)
  | some t =>
    let p := { progress with reported_at := some now, agent := some a.id }
    if ws_raises then (a, m)
    else
      let wp := dictSet m.world_progress ("task_progress:" ++ t.id) p
      let m1 := { m with world_progress := wp }
      if p.status == "completed" || p.status == "failed" then
        ({ a with status := "idle", current_task := none }, m1)
      else (a, m1)

/-- TaskOrchestrator: the agent registry (a dict keyed by agent id in
registration order) and the task queue. -/
structure Orchestrator where
  agents : List (String × Agent)
  task_queue : TaskQueue
deriving DecidableEq, Repr

/-- TaskOrchestrator.register_agent: self.agents[agent.id] = agent. -/
def register_agent (o : Orchestrator) (a : Agent) : Orchestrator :=
  { o with agents := dictSet o.agents a.id a }

/-- TaskOrchestrator.create_task: build a Task in pending status (fresh
uuid supplied as fresh_id, datetime.now() as now), add it to the queue
and store its dict form in long-term memory under task:{id}. -/
def create_task (o : Orchestrator) (m : Memory) (description : String)
    (requirements : List String) (required_capabilities : Option (List String))
    (priority : Int) (dependencies : Option (List String))
    (context : Option (List (String × String))) (fresh_id : String) (now : Nat) :
    String × Orchestrator × Memory :=
  let task : Task :=
    { id := fresh_id
      description := description
      requirements := requirements
      required_capabilities := required_capabilities.getD []
      priority := priority
      dependencies := dependencies.getD []
      context := context.getD []
      status := "pending"
      created_at := now
      assigned_to := none
      result := none }
  let r := add_task o.task_queue task
  let m1 := { m with long_term := dictSet m.long_term ("task:" ++ r.1) task.to_dict }
  (r.1, { o with task_queue := r.2 }, m1)

/-- TaskOrchestrator.handle_completed_task: mark the queue task completed
with the progress record as result, then mirror into the long-term
snapshot if one exists, adding a completed_at stamp. -/
def handle_completed_task (o : Orchestrator) (m : Memory) (task_id : String)
    (result : Progress) (now : Nat) : Orchestrator × Memory :=
  let r := update_task o.task_queue task_id
    { status := some "completed", result := some (some result) }
  let m1 :=
    match dictGet m.long_term ("task:" ++ task_id) with
    | some d =>
      let d1 := { d with status := "completed", result := some result, completed_at := some now }
      { m with long_term := dictSet m.long_term ("task:" ++ task_id) d1 }
    | none => m
  ({ o with task_queue := r.2 }, m1)

/-- TaskOrchestrator.handle_failed_task: mark the queue task failed with
the error data as result, then mirror into the long-term snapshot if one
exists, adding a failed_at stamp. -/
def handle_failed_task (o : Orchestrator) (m : Memory) (task_id : String)
    (error_data : Progress) (now : Nat) : Orchestrator × Memory :=
  let r := update_task o.task_queue task_id
    { status := some "failed", result := some (some error_data) }
  let m1 :=
    match dictGet m.long_term ("task:" ++ task_id) with
    | some d =>
      let d1 := { d with status := "failed", result := some error_data, failed_at := some now }
      { m with long_term := dictSet m.long_term ("task:" ++ task_id) d1 }
    | none => m
  ({ o with task_queue := r.2 }, m1)

/-- One iteration of the TaskOrchestrator.monitor_progress loop body for
one registry entry, threading the orchestrator and memory. -/
def monitor_step (now : Nat) (st : Orchestrator × Memory) (entry : String × Agent) :
    Orchestrator × Memory :=
  let a := entry.2
  if a.status != "working" then st
  else
    match a.current_task with
    | none => st
    | some ct =>
      match dictGet st.2.world_progress ("task_progress:" ++ ct.id) with
      | none => st
      | some p =>
        if p.status == "completed" then handle_completed_task st.1 st.2 ct.id p now
        else if p.status == "failed" then handle_failed_task st.1 st.2 ct.id p now
        else st

/-- TaskOrchestrator.monitor_progress: for every registered agent in
working status with a current task, read the shared progress record for
that task id and route terminal records to the matching handler.  Neither
the loop nor the handlers ever write to an agent. -/
def monitor_progress (o : Orchestrator) (m : Memory) (now : Nat) :
    Orchestrator × Memory :=
  o.agents.foldl (monitor_step now) (o, m)

/-- One iteration of the TaskOrchestrator.assign_tasks loop body for one
registry entry: skip busy agents, pick the best task from the current
queue, attempt the assignment (the collaborator-failure oracles are keyed
by the registry key), store the possibly mutated agent back, and on
success mark the canonical task assigned to the agent. -/
def assign_step (now : Nat) (st_raises ws_raises : String → Bool)
    (acc : Nat × Orchestrator × Memory) (entry : String × Agent) :
    Nat × Orchestrator × Memory :=
  let count := acc.1
  let o := acc.2.1
  let m := acc.2.2
  let a := entry.2
  if a.status != "idle" then acc
  else
    match get_next_task o.task_queue a.capabilities with
    | none => acc
    | some task =>
      let r := assign_task a task.to_dict m now (st_raises entry.1) (ws_raises entry.1)
      let o1 := { o with agents := dictSet o.agents entry.1 r.2.1 }
      if r.1 then
        let uq := update_task o1.task_queue task.id
          { status := some "assigned", assigned_to := some (some a.id) }
        (count + 1, { o1 with task_queue := uq.2 }, r.2.2)
      else (count, o1, r.2.2)

/-- TaskOrchestrator.assign_tasks: iterate the registry in registration
order, giving each idle agent at most one task, and return the number of
successful assignments together with the updated state. -/
def assign_tasks (o : Orchestrator) (m : Memory) (now : Nat)
    (st_raises ws_raises : String → Bool) : Nat × Orchestrator × Memory :=
  o.agents.foldl (assign_step now st_raises ws_raises) (0, o, m)

/-- A progress report issued by the registered agent with the given
registry key: the agent object is read from the registry, its
report_progress runs, and the mutated object is stored back.  This models
an external agent behavior calling its own report_progress while the
orchestrator state is shared. -/
def sys_report (o : Orchestrator) (m : Memory) (aid : String) (p : Progress)
    (now : Nat) (ws_raises : Bool) : Orchestrator × Memory :=
  match dictGet o.agents aid with
  | none => (o, m)
  | some a =>
    let r := report_progress a p m now ws_raises
    ({ o with agents := dictSet o.agents aid r.1 }, r.2)

/-- The empty initial memory. -/
def memory0 : Memory :=
  { short_term := [], long_term := [], world_assignment := [], world_progress := [] }

/-- The initial orchestrator: no agents, empty queue. -/
def orchestrator0 : Orchestrator := { agents := [], task_queue := [] }

theorem dictGet_dictSet_self {α : Type} (l : List (String × α)) (k : String) (v : α) :
    dictGet (dictSet l k v) k = some v := by
  induction l with
  | nil => simp [dictGet, dictSet]
  | cons p tl ih =>
    by_cases h : p.1 = k
    · simp [dictGet, dictSet, h]
    · simp [dictGet, dictSet, h, ih]

theorem dictGet_dictSet_other {α : Type} (l : List (String × α)) (k k' : String) (v : α)
    (h : k' ≠ k) : dictGet (dictSet l k v) k' = dictGet l k' := by
  have hks : k ≠ k' := Ne.symm h
  induction l with
  | nil => simp [dictGet, dictSet, hks]
  | cons p tl ih =>
    by_cases hp : p.1 = k
    · simp [dictGet, dictSet, hp, hks]
    · simp only [dictSet, hp, if_neg hp]
      by_cases hp' : p.1 = k'
      · simp [dictGet, hp']
      · simp [dictGet, hp', ih]

theorem dictSet_keys_of_mem {α : Type} (l : List (String × α)) (k : String) (v : α)
    (h : dictGet l k ≠ none) : (dictSet l k v).map Prod.fst = l.map Prod.fst := by
  induction l with
  | nil => simp [dictGet] at h
  | cons p tl ih =>
    by_cases hp : p.1 = k
    · simp [dictSet, hp]
    · have h' : dictGet tl k ≠ none := by simpa [dictGet, hp] using h
      simp [dictSet, hp, ih h']

theorem update_task_not_found (q : TaskQueue) (task_id : String) (u : TaskUpdates)
    (h : dictGet q task_id = none) : update_task q task_id u = (false, q) := by
  simp [update_task, h]

theorem update_task_found (q : TaskQueue) (task_id : String) (u : TaskUpdates)
    (t : Task) (h : dictGet q task_id = some t) :
    update_task q task_id u = (true, dictSet q task_id (apply_updates t u)) := by
  simp [update_task, h]

theorem dictGet_update_task_self (q : TaskQueue) (task_id : String) (u : TaskUpdates)
    (t : Task) (h : dictGet q task_id = some t) :
    dictGet (update_task q task_id u).2 task_id = some (apply_updates t u) := by
  rw [update_task_found q task_id u t h]
  exact dictGet_dictSet_self q task_id (apply_updates t u)

theorem dictGet_update_task_other (q : TaskQueue) (task_id k : String) (u : TaskUpdates)
    (h : k ≠ task_id) : dictGet (update_task q task_id u).2 k = dictGet q k := by
  cases hq : dictGet q task_id with
  | none => rw [update_task_not_found q task_id u hq]
  | some t =>
    rw [update_task_found q task_id u t hq]
    exact dictGet_dictSet_other q task_id k (apply_updates t u) h

theorem update_task_keys (q : TaskQueue) (task_id : String) (u : TaskUpdates) :
    (update_task q task_id u).2.map Prod.fst = q.map Prod.fst := by
  cases hq : dictGet q task_id with
  | none => rw [update_task_not_found q task_id u hq]
  | some t =>
    rw [update_task_found q task_id u t hq]
    exact dictSet_keys_of_mem q task_id (apply_updates t u) (by simp [hq])

theorem bestOf_cons (h t : Task) (ts : List Task) :
    bestOf h (t :: ts) = bestOf (if h.priority < t.priority then t else h) ts := rfl

theorem le_bestOf (h : Task) (tl : List Task) :
    h.priority ≤ (bestOf h tl).priority := by
  induction tl generalizing h with
  | nil => exact le_refl _
  | cons t ts ih =>
    rw [bestOf_cons]
    by_cases hlt : h.priority < t.priority
    · simp only [if_pos hlt]
      exact le_trans (le_of_lt hlt) (ih t)
    · simp only [if_neg hlt]
      exact ih h

theorem bestOf_split (h : Task) (tl : List Task) :
    ∃ l1 l2, h :: tl = l1 ++ bestOf h tl :: l2 ∧
      (∀ u ∈ l1, u.priority < (bestOf h tl).priority) ∧
      (∀ u ∈ l2, u.priority ≤ (bestOf h tl).priority) := by
  induction tl generalizing h with
  | nil => exact ⟨[], [], rfl, by simp, by simp⟩
  | cons t ts ih =>
    by_cases hlt : h.priority < t.priority
    · have hb : bestOf h (t :: ts) = bestOf t ts := by rw [bestOf_cons, if_pos hlt]
      obtain ⟨l1, l2, heq, h1, h2⟩ := ih t
      refine ⟨h :: l1, l2, ?_, ?_, ?_⟩
      · rw [hb, List.cons_append, ← heq]
      · intro u hu
        rw [hb]
        rcases List.mem_cons.1 hu with hu | hu
        · rw [hu]
          exact lt_of_lt_of_le hlt (le_bestOf t ts)
        · exact h1 u hu
      · intro u hu
        rw [hb]
        exact h2 u hu
    · have hb : bestOf h (t :: ts) = bestOf h ts := by rw [bestOf_cons, if_neg hlt]
      obtain ⟨l1, l2, heq, h1, h2⟩ := ih h
      cases l1 with
      | nil =>
        simp only [List.nil_append, List.cons.injEq] at heq
        refine ⟨[], t :: ts, ?_, by simp, ?_⟩
        · rw [hb, List.nil_append, ← heq.1]
        · intro u hu
          rw [hb]
          rcases List.mem_cons.1 hu with hu | hu
          · rw [hu, ← heq.1]
            exact not_lt.1 hlt
          · rw [heq.2] at hu
            exact h2 u hu
      | cons x l1' =>
        simp only [List.cons_append, List.cons.injEq] at heq
        refine ⟨h :: t :: l1', l2, ?_, ?_, ?_⟩
        · rw [hb]
          simp only [List.cons_append]
          rw [← heq.2]
        · intro u hu
          rw [hb]
          have hx : h.priority < (bestOf h ts).priority := by
            have := h1 x (List.mem_cons_self x l1')
            rwa [← heq.1] at this
          rcases List.mem_cons.1 hu with hu | hu
          · rw [hu]; exact hx
          rcases List.mem_cons.1 hu with hu | hu
          · rw [hu]
            exact lt_of_le_of_lt (not_lt.1 hlt) hx
          · exact h1 u (List.mem_cons_of_mem x hu)
        · intro u hu
          rw [hb]
          exact h2 u hu

theorem bestOf_mem (h : Task) (tl : List Task) : bestOf h tl ∈ h :: tl := by
  obtain ⟨l1, l2, heq, -, -⟩ := bestOf_split h tl
  rw [heq]
  exact List.mem_append.2 (Or.inr (List.mem_cons_self _ _))

/-- The candidate list computed by get_next_task. -/
def candidates (q : TaskQueue) (agent_capabilities : List String) : List Task :=
  (q.map Prod.snd).filter (isCandidate q agent_capabilities)

theorem get_next_task_eq (q : TaskQueue) (caps : List String) :
    get_next_task q caps =
      match candidates q caps with
      | [] => none
      | h :: tl => some (bestOf h tl) := rfl

theorem get_next_task_mem (q : TaskQueue) (caps : List String) (t : Task)
    (h : get_next_task q caps = some t) : t ∈ candidates q caps := by
  rw [get_next_task_eq] at h
  cases hc : candidates q caps with
  | nil => rw [hc] at h; cases h
  | cons h0 tl =>
    rw [hc] at h
    rw [Option.some.injEq] at h
    exact h ▸ bestOf_mem h0 tl

theorem get_next_task_isCandidate (q : TaskQueue) (caps : List String) (t : Task)
    (h : get_next_task q caps = some t) :
    isCandidate q caps t = true ∧ t ∈ q.map Prod.snd := by
  have := get_next_task_mem q caps t h
  rw [candidates, List.mem_filter] at this
  exact ⟨this.2, this.1⟩

theorem depStatus_completed_iff (q : TaskQueue) (dep : String) :
    ((match dictGet q dep with
      | some d => d.status
      | none => "pending") = "completed") ↔
      ∃ d, dictGet q dep = some d ∧ d.status = "completed" := by
  cases h : dictGet q dep with
  | none =>
    simp only [h]
    constructor
    · intro hc; exact absurd hc (by decide)
    · rintro ⟨d, hd, -⟩; cases hd
  | some d => simp [h]

theorem isCandidate_iff (q : TaskQueue) (caps : List String) (t : Task) :
    isCandidate q caps t = true ↔
      t.status = "pending" ∧
      (∀ dep ∈ t.dependencies, ∃ d, dictGet q dep = some d ∧ d.status = "completed") ∧
      (∀ cap ∈ t.required_capabilities, cap ∈ caps) := by
  simp only [isCandidate, depsSatisfied, capsOk, Bool.and_eq_true, beq_iff_eq,
    Bool.not_eq_true', List.any_eq_false, bne_iff_ne, ne_eq, not_not,
    List.all_eq_true, List.contains, List.elem_iff, decide_eq_true_eq, and_assoc]
  constructor
  · rintro ⟨h1, h2, h3⟩
    exact ⟨h1, fun dep hd => (depStatus_completed_iff q dep).1 (h2 dep hd), h3⟩
  · rintro ⟨h1, h2, h3⟩
    exact ⟨h1, fun dep hd => (depStatus_completed_iff q dep).2 (h2 dep hd), h3⟩

/-- C9: serializing any Task to its dictionary storage representation and
reconstructing it yields a Task with identical values in every field (id,
description, requirements, required_capabilities, priority, dependencies,
context, status, created_at, assigned_to, result). -/
theorem C9_to_dict_from_dict_roundtrip (t : Task) :
    Task.from_dict (Task.to_dict t) = t := by
  cases t
  rfl

/-- A first task under ID dup, used to exhibit the replacement behavior
of add_task. -/
def c4First : Task :=
  { id := "dup", description := "first", requirements := [],
    required_capabilities := [], priority := 1, dependencies := [],
    context := [], status := "pending", created_at := 0,
    assigned_to := none, result := none }

/-- A second, different task with the same ID dup. -/
def c4Second : Task :=
  { c4First with description := "second", created_at := 1 }

/-- C4 counterexample: adding a task whose ID already exists in the queue
does not fail — add_task has no duplicate check, returns the ID normally
and silently replaces the stored task (no DuplicateIDError exists
anywhere in the source). -/
theorem C4_counterexample :
    (add_task (add_task [] c4First).2 c4Second).1 = "dup" ∧
    dictGet (add_task (add_task [] c4First).2 c4Second).2 "dup" = some c4Second ∧
    c4Second ≠ c4First := by
  refine ⟨rfl, by decide, by decide⟩

/-- C4 amended: add_task always succeeds, returning the task ID and
storing the task under that ID — replacing any task already stored there
and leaving every other entry unchanged. -/
theorem C4_amended_add_task_replaces (q : TaskQueue) (t : Task) :
    (add_task q t).1 = t.id ∧
    dictGet (add_task q t).2 t.id = some t ∧
    (∀ k, k ≠ t.id → dictGet (add_task q t).2 k = dictGet q k) := by
  exact ⟨rfl, dictGet_dictSet_self q t.id t,
    fun k hk => dictGet_dictSet_other q t.id k t hk⟩

/-- Witness for the amended C4 at a concrete queue and task. -/
theorem C4_amended_witness :
    (add_task [] c4First).1 = c4First.id ∧
    dictGet (add_task [("zzz", c4Second)] c4First).2 "zzz" =
      dictGet [("zzz", c4Second)] "zzz" :=
  ⟨(C4_amended_add_task_replaces [] c4First).1,
   (C4_amended_add_task_replaces [("zzz", c4Second)] c4First).2.2 "zzz" (by decide)⟩

/-- The stored task for the C7 counterexample, priority 1. -/
def c7Task : Task :=
  { id := "x", description := "d", requirements := [],
    required_capabilities := [], priority := 1, dependencies := [],
    context := [], status := "pending", created_at := 0,
    assigned_to := none, result := none }

/-- An updates dict naming the priority attribute. -/
def c7Updates : TaskUpdates := { priority := some 99 }

/-- C7 counterexample: update_task performs setattr for any existing
attribute named in the updates dict, so an update naming priority changes
the priority field — contradicting the claim that only status,
assigned_to and result are mutable through update_task. -/
theorem C7_counterexample :
    (update_task [("x", c7Task)] "x" c7Updates).1 = true ∧
    (dictGet (update_task [("x", c7Task)] "x" c7Updates).2 "x").map Task.priority
      = some 99 ∧
    c7Task.priority = 1 := by
  refine ⟨by decide, by decide, rfl⟩

/-- C7 amended: update_task returns false and leaves every task unchanged
when the ID is absent; when the ID is present it returns true, overwrites
exactly the fields named in the updates dict (any Task attribute may be
named, not only status, assigned_to and result), leaves every field not
named in the updates unchanged, and leaves every other task unchanged. -/
theorem C7_amended_update_task_any_field (q : TaskQueue) (task_id : String)
    (u : TaskUpdates) :
    (dictGet q task_id = none → update_task q task_id u = (false, q)) ∧
    (∀ t, dictGet q task_id = some t →
      (update_task q task_id u).1 = true ∧
      dictGet (update_task q task_id u).2 task_id = some (apply_updates t u) ∧
      (∀ k, k ≠ task_id → dictGet (update_task q task_id u).2 k = dictGet q k) ∧
      ((u.id = none → (apply_updates t u).id = t.id) ∧
       (u.description = none → (apply_updates t u).description = t.description) ∧
       (u.requirements = none → (apply_updates t u).requirements = t.requirements) ∧
       (u.required_capabilities = none →
         (apply_updates t u).required_capabilities = t.required_capabilities) ∧
       (u.priority = none → (apply_updates t u).priority = t.priority) ∧
       (u.dependencies = none → (apply_updates t u).dependencies = t.dependencies) ∧
       (u.context = none → (apply_updates t u).context = t.context) ∧
       (u.status = none → (apply_updates t u).status = t.status) ∧
       (u.created_at = none → (apply_updates t u).created_at = t.created_at) ∧
       (u.assigned_to = none → (apply_updates t u).assigned_to = t.assigned_to) ∧
       (u.result = none → (apply_updates t u).result = t.result))) := by
  refine ⟨update_task_not_found q task_id u, ?_⟩
  intro t ht
  refine ⟨by rw [update_task_found q task_id u t ht],
    dictGet_update_task_self q task_id u t ht,
    fun k hk => dictGet_update_task_other q task_id k u hk,
    ?_, ?_, ?_, ?_, ?_, ?_, ?_, ?_, ?_, ?_, ?_⟩ <;>
  · intro h
    simp [apply_updates, h]

/-- Witness for the amended C7: both the absent-ID branch and the
present-ID branch at concrete inputs. -/
theorem C7_amended_witness :
    update_task [("x", c7Task)] "absent" c7Updates = (false, [("x", c7Task)]) ∧
    (update_task [("x", c7Task)] "x" c7Updates).1 = true ∧
    (apply_updates c7Task c7Updates).status = c7Task.status :=
  ⟨(C7_amended_update_task_any_field [("x", c7Task)] "absent" c7Updates).1 (by decide),
   ((C7_amended_update_task_any_field [("x", c7Task)] "x" c7Updates).2 c7Task (by decide)).1,
   (((C7_amended_update_task_any_field [("x", c7Task)] "x" c7Updates).2 c7Task
      (by decide)).2.2.2).2.2.2.2.2.2.2.1 rfl⟩

/-- C2: get_next_task only ever returns a queue task that is pending,
whose dependencies all resolve to completed tasks in the queue (a missing
dependency ID counts as unmet), and whose required capabilities are all
held by the agent; and it returns none when no queue task satisfies all
three conditions. -/
theorem C2_get_next_task_eligibility (q : TaskQueue) (caps : List String) :
    (∀ t : Task, get_next_task q caps = some t →
      t ∈ q.map Prod.snd ∧
      t.status = "pending" ∧
      (∀ dep ∈ t.dependencies, ∃ d, dictGet q dep = some d ∧ d.status = "completed") ∧
      (∀ cap ∈ t.required_capabilities, cap ∈ caps)) ∧
    ((∀ t ∈ q.map Prod.snd,
        ¬(t.status = "pending" ∧
          (∀ dep ∈ t.dependencies, ∃ d, dictGet q dep = some d ∧ d.status = "completed") ∧
          (∀ cap ∈ t.required_capabilities, cap ∈ caps))) →
      get_next_task q caps = none) := by
  constructor
  · intro t h
    obtain ⟨hc, hm⟩ := get_next_task_isCandidate q caps t h
    exact ⟨hm, (isCandidate_iff q caps t).1 hc⟩
  · intro hall
    have hc : candidates q caps = [] := by
      rw [candidates, List.filter_eq_nil_iff]
      intro t ht
      intro hcand
      exact hall t ht ((isCandidate_iff q caps t).1 hcand)
    rw [get_next_task_eq, hc]

/-- An eligible pending task for the C2 witness. -/
def c2Good : Task :=
  { id := "w1", description := "w", requirements := [],
    required_capabilities := [], priority := 1, dependencies := [],
    context := [], status := "pending", created_at := 0,
    assigned_to := none, result := none }

/-- An ineligible (already assigned) task for the C2 witness. -/
def c2Bad : Task := { c2Good with id := "w2", status := "assigned" }

/-- Witness for C2: the soundness conjunct applied where a task is
returned, and the none conjunct applied where the only task is not
pending. -/
theorem C2_witness :
    c2Good.status = "pending" ∧ get_next_task [("w2", c2Bad)] [] = none := by
  refine ⟨((C2_get_next_task_eligibility [("w1", c2Good)] []).1 c2Good
    (by decide)).2.1, ?_⟩
  refine (C2_get_next_task_eligibility [("w2", c2Bad)] []).2 ?_
  intro t ht
  have ht' : t = c2Bad := by
    simpa using ht
  rintro ⟨hs, -, -⟩
  rw [ht'] at hs
  exact absurd hs (by decide)

/-- Equal-priority task created earlier but inserted second. -/
def c1A : Task :=
  { id := "a", description := "A", requirements := [],
    required_capabilities := [], priority := 5, dependencies := [],
    context := [], status := "pending", created_at := 1,
    assigned_to := none, result := none }

/-- Equal-priority task created later but inserted first. -/
def c1B : Task := { c1A with id := "b", created_at := 2 }

/-- A queue whose insertion order disagrees with creation-time order. -/
def c1Queue : TaskQueue := [("b", c1B), ("a", c1A)]

/-- C1 counterexample: with two eligible tasks of equal priority,
get_next_task returns the task that was inserted into the queue first
(task b), even though the other candidate (task a) has the strictly
earlier creation time — the tie-break is dict insertion order, not
created_at, so the claim as stated is false. -/
theorem C1_counterexample :
    get_next_task c1Queue [] = some c1B ∧
    isCandidate c1Queue [] c1A = true ∧
    isCandidate c1Queue [] c1B = true ∧
    c1A.priority = c1B.priority ∧
    c1A.created_at < c1B.created_at := by
  refine ⟨by decide, by decide, by decide, rfl, by decide⟩

/-- C1 amended: when the candidate set is non-empty, get_next_task
returns a candidate of maximum priority, and among candidates of equal
maximum priority it returns the one earliest in the queue's insertion
order (every earlier candidate has strictly lower priority, every later
candidate has priority at most the returned one); this coincides with
earliest creation time only when insertion order follows creation
time. -/
theorem C1_amended_max_priority_first_inserted (q : TaskQueue) (caps : List String)
    (h : candidates q caps ≠ []) :
    ∃ t l1 l2, get_next_task q caps = some t ∧
      candidates q caps = l1 ++ t :: l2 ∧
      (∀ u ∈ l1, u.priority < t.priority) ∧
      (∀ u ∈ l2, u.priority ≤ t.priority) := by
  cases hc : candidates q caps with
  | nil => exact absurd hc h
  | cons h0 tl =>
    obtain ⟨l1, l2, heq, h1, h2⟩ := bestOf_split h0 tl
    refine ⟨bestOf h0 tl, l1, l2, ?_, ?_, h1, h2⟩
    · rw [get_next_task_eq, hc]
    · exact heq

/-- Witness for the amended C1 at the concrete two-task queue. -/
theorem C1_amended_witness :
    ∃ t l1 l2, get_next_task c1Queue [] = some t ∧
      candidates c1Queue [] = l1 ++ t :: l2 ∧
      (∀ u ∈ l1, u.priority < t.priority) ∧
      (∀ u ∈ l2, u.priority ≤ t.priority) :=
  C1_amended_max_priority_first_inserted c1Queue [] (by decide)

/-- One operation on a single agent: an assignment attempt or a progress
report, each carrying the clock value and the collaborator-failure
oracles for the calls it makes. -/
inductive AgentOp where
  | assign : TaskDict → Nat → Bool → Bool → AgentOp
  | report : Progress → Nat → Bool → AgentOp

/-- Apply one operation to an agent together with the collaborator
state. -/
def applyAgentOp (st : Agent × Memory) : AgentOp → Agent × Memory
  | AgentOp.assign t now s w => (assign_task st.1 t st.2 now s w).2
  | AgentOp.report p now w => report_progress st.1 p st.2 now w

/-- Run a sequence of operations from a starting state. -/
def runAgentOps (st : Agent × Memory) (ops : List AgentOp) : Agent × Memory :=
  ops.foldl applyAgentOp st

/-- The exclusivity invariant of the agent state machine. -/
def agentInv (a : Agent) : Prop :=
  (a.status = "working" ↔ a.current_task ≠ none) ∧
  (a.status = "idle" ↔ a.current_task = none)

theorem assign_task_agent_cases (a : Agent) (t : TaskDict) (m : Memory)
    (now : Nat) (s w : Bool) :
    (assign_task a t m now s w).2.1 = a ∨
    (assign_task a t m now s w).2.1 =
      { a with current_task := some t, status := "working" } := by
  unfold assign_task
  dsimp only
  split
  · exact Or.inl rfl
  · split
    · exact Or.inl rfl
    · split
      · exact Or.inl rfl
      · split
        · exact Or.inr rfl
        · exact Or.inr rfl

theorem report_progress_agent_cases (a : Agent) (p : Progress) (m : Memory)
    (now : Nat) (w : Bool) :
    (report_progress a p m now w).1 = a ∨
    (report_progress a p m now w).1 =
      { a with status := "idle", current_task := none } := by
  unfold report_progress
  cases hct : a.current_task with
  | none => exact Or.inl rfl
  | some t =>
    dsimp only
    split
    · exact Or.inl rfl
    · split
      · exact Or.inr rfl
      · exact Or.inl rfl

theorem agentInv_busy (a : Agent) (t : TaskDict) :
    agentInv { a with current_task := some t, status := "working" } := by
  refine ⟨⟨fun _ => by simp, fun _ => rfl⟩,
          ⟨fun h => by simp at h, fun h => by simp at h⟩⟩

theorem agentInv_idle (a : Agent) :
    agentInv { a with status := "idle", current_task := none } := by
  refine ⟨⟨fun h => by simp at h, fun h => absurd rfl h⟩,
          ⟨fun _ => rfl, fun _ => rfl⟩⟩

theorem applyAgentOp_inv (st : Agent × Memory) (op : AgentOp)
    (h : agentInv st.1) : agentInv (applyAgentOp st op).1 := by
  cases op with
  | assign t now s w =>
    have he : (applyAgentOp st (AgentOp.assign t now s w)).1 =
        (assign_task st.1 t st.2 now s w).2.1 := rfl
    rw [he]
    rcases assign_task_agent_cases st.1 t st.2 now s w with hc | hc
    · rw [hc]; exact h
    · rw [hc]; exact agentInv_busy st.1 t
  | report p now w =>
    have he : (applyAgentOp st (AgentOp.report p now w)).1 =
        (report_progress st.1 p st.2 now w).1 := rfl
    rw [he]
    rcases report_progress_agent_cases st.1 p st.2 now w with hc | hc
    · rw [hc]; exact h
    · rw [hc]; exact agentInv_idle st.1

theorem runAgentOps_inv (ops : List AgentOp) (st : Agent × Memory)
    (h : agentInv st.1) : agentInv (runAgentOps st ops).1 := by
  induction ops generalizing st with
  | nil => exact h
  | cons op rest ih => exact ih (applyAgentOp st op) (applyAgentOp_inv st op h)

theorem agentInv_mkAgent (name : String) (caps : List String) (uuid_hex8 : String) :
    agentInv (mkAgent name caps uuid_hex8) := by
  refine ⟨⟨fun h => ?_, fun h => absurd rfl h⟩, ⟨fun _ => rfl, fun _ => rfl⟩⟩
  have h' : "idle" = "working" := h
  simp at h'

/-- C5: starting from a freshly constructed agent, after any sequence of
assign_task and report_progress operations — including ones in which the
memory collaborator raises — the agent's status is working exactly when
its current task is non-null and idle exactly when its current task is
null. -/
theorem C5_agent_status_slot_invariant (name : String) (caps : List String)
    (uuid_hex8 : String) (m : Memory) (ops : List AgentOp) :
    ((runAgentOps (mkAgent name caps uuid_hex8, m) ops).1.status = "working" ↔
      (runAgentOps (mkAgent name caps uuid_hex8, m) ops).1.current_task ≠ none) ∧
    ((runAgentOps (mkAgent name caps uuid_hex8, m) ops).1.status = "idle" ↔
      (runAgentOps (mkAgent name caps uuid_hex8, m) ops).1.current_task = none) :=
  runAgentOps_inv ops (mkAgent name caps uuid_hex8, m)
    (agentInv_mkAgent name caps uuid_hex8)

/-- The world-progress partition after a successful stamped write of the
record for the current task. -/
def wpStamped (a : Agent) (p : Progress) (m : Memory) (now : Nat) (ct : TaskDict) :
    List (String × Progress) :=
  dictSet m.world_progress ("task_progress:" ++ ct.id)
    { p with reported_at := some now, agent := some a.id }

/-- C8: with a current task and a terminal progress status, a successful
report_progress stamps the record with the timestamp and the agent ID,
writes it to world state under the task ID key, clears the slot and
reverts the status to idle; without a current task, report_progress is a
no-op for any collaborator behavior — no exception, no state change. -/
theorem C8_report_progress_terminal_and_noop (a : Agent) (p : Progress)
    (m : Memory) (now : Nat) (w : Bool) :
    (∀ ct, a.current_task = some ct →
      (p.status = "completed" ∨ p.status = "failed") →
      ((report_progress a p m now false).1.status = "idle" ∧
       (report_progress a p m now false).1.current_task = none ∧
       dictGet (report_progress a p m now false).2.world_progress
           ("task_progress:" ++ ct.id) =
         some { p with reported_at := some now, agent := some a.id })) ∧
    (a.current_task = none → report_progress a p m now w = (a, m)) := by
  constructor
  · intro ct hct hterm
    have hb : (p.status == "completed" || p.status == "failed") = true := by
      rcases hterm with h | h <;> simp [h]
    have key : report_progress a p m now false =
        ({ a with status := "idle", current_task := none },
         { m with world_progress := wpStamped a p m now ct }) := by
      unfold report_progress
      rw [hct]
      dsimp only
      rw [if_neg (by simp : ¬ (false = true))]
      rw [if_pos hb]
      rfl
    rw [key]
    exact ⟨rfl, rfl, dictGet_dictSet_self m.world_progress _ _⟩
  · intro h
    simp [report_progress, h]

/-- The task dict held by the C8 witness agent. -/
def c8CT : TaskDict :=
  Task.to_dict
    { id := "t9", description := "w", requirements := [],
      required_capabilities := [], priority := 1, dependencies := [],
      context := [], status := "assigned", created_at := 0,
      assigned_to := some "w_1", result := none }

/-- A working agent holding c8CT. -/
def c8Agent : Agent :=
  { name := "w", id := "w_1", capabilities := [],
    current_task := some c8CT, status := "working" }

/-- An idle agent with no current task. -/
def c8Idle : Agent :=
  { c8Agent with current_task := none, status := "idle" }

/-- A terminal progress payload. -/
def c8P : Progress :=
  { status := "completed", output := some "out", message := none,
    reported_at := none, agent := none }

/-- Witness for C8: both conjuncts applied at concrete inputs. -/
theorem C8_witness :
    ((report_progress c8Agent c8P memory0 7 false).1.status = "idle" ∧
     (report_progress c8Agent c8P memory0 7 false).1.current_task = none ∧
     dictGet (report_progress c8Agent c8P memory0 7 false).2.world_progress
         ("task_progress:" ++ c8CT.id) =
       some { c8P with reported_at := some 7, agent := some c8Agent.id }) ∧
    report_progress c8Idle c8P memory0 7 true = (c8Idle, memory0) :=
  ⟨(C8_report_progress_terminal_and_noop c8Agent c8P memory0 7 true).1
     c8CT rfl (Or.inl rfl),
   (C8_report_progress_terminal_and_noop c8Idle c8P memory0 7 true).2 rfl⟩

/-- An agent busy with the given task dict: the state reached by the
success path of assign_task after the short-term store. -/
def busyWith (a : Agent) (t : TaskDict) : Agent :=
  { a with current_task := some t, status := "working" }

/-- The memory after the short-term store of a task dict. -/
def shortTermWith (m : Memory) (t : TaskDict) : Memory :=
  { m with short_term := dictSet m.short_term ("task:" ++ t.id) t }

theorem assign_task_ws_failure (a : Agent) (t : TaskDict) (m : Memory) (now : Nat)
    (hidle : a.status = "idle")
    (hcap : (t.required_capabilities.getD []).all
      (fun cap => a.capabilities.contains cap) = true) :
    assign_task a t m now false true = (false, busyWith a t, shortTermWith m t) := by
  unfold assign_task busyWith shortTermWith
  rw [hidle]
  dsimp only
  rw [hcap]
  simp

/-- C10: when an idle, capable agent is handed a task and store_short_term
succeeds but update_world_state raises, assign_task returns false while
the agent is left working with the task in its slot; consequently a
single-agent assign_tasks cycle under that failure reports zero
assignments and leaves the queue untouched — the selected task stays
recorded as pending while the agent is busy with it. -/
theorem C10_ws_failure_agent_busy_queue_pending (a : Agent) (m : Memory)
    (now : Nat) (hidle : a.status = "idle") :
    (∀ t : TaskDict,
      (t.required_capabilities.getD []).all
        (fun cap => a.capabilities.contains cap) = true →
      ((assign_task a t m now false true).1 = false ∧
       (assign_task a t m now false true).2.1.status = "working" ∧
       (assign_task a t m now false true).2.1.current_task = some t)) ∧
    (∀ (aid : String) (q : TaskQueue) (task : Task),
      get_next_task q a.capabilities = some task →
      ((assign_tasks { agents := [(aid, a)], task_queue := q } m now
          (fun _ => false) (fun _ => true)).1 = 0 ∧
       (assign_tasks { agents := [(aid, a)], task_queue := q } m now
          (fun _ => false) (fun _ => true)).2.1.task_queue = q ∧
       (assign_tasks { agents := [(aid, a)], task_queue := q } m now
          (fun _ => false) (fun _ => true)).2.1.agents =
         [(aid, busyWith a task.to_dict)] ∧
       task.status = "pending")) := by
  constructor
  · intro t hcap
    rw [assign_task_ws_failure a t m now hidle hcap]
    exact ⟨rfl, rfl, rfl⟩
  · intro aid q task hq
    have hcand := (get_next_task_isCandidate q a.capabilities task hq).1
    rw [isCandidate] at hcand
    simp only [Bool.and_eq_true] at hcand
    have hcap : (task.to_dict.required_capabilities.getD []).all
        (fun cap => a.capabilities.contains cap) = true := by
      have hco := hcand.2
      rw [capsOk] at hco
      exact hco
    have hpend : task.status = "pending" := by
      have hp := hcand.1.1
      exact beq_iff_eq.1 hp
    have hstep : assign_tasks { agents := [(aid, a)], task_queue := q } m now
        (fun _ => false) (fun _ => true) =
        (0, { agents := [(aid, busyWith a task.to_dict)], task_queue := q },
         shortTermWith m task.to_dict) := by
      show assign_step now (fun _ => false) (fun _ => true)
        (0, { agents := [(aid, a)], task_queue := q }, m) (aid, a) = _
      unfold assign_step
      dsimp only
      rw [hidle, hq]
      dsimp only
      rw [assign_task_ws_failure a task.to_dict m now hidle hcap]
      simp [dictSet]
    rw [hstep]
    exact ⟨rfl, rfl, rfl, hpend⟩

/-- The idle capable agent for the C10 witness. -/
def c10Agent : Agent :=
  { name := "n", id := "n1", capabilities := ["code_generation"],
    current_task := none, status := "idle" }

/-- The pending task selected for the C10 witness. -/
def c10Task : Task :=
  { id := "tk", description := "gen", requirements := [],
    required_capabilities := ["code_generation"], priority := 2,
    dependencies := [], context := [], status := "pending",
    created_at := 0, assigned_to := none, result := none }

/-- Witness for C10: both conjuncts applied at concrete inputs. -/
theorem C10_witness :
    ((assign_task c10Agent c10Task.to_dict memory0 5 false true).1 = false ∧
     (assign_task c10Agent c10Task.to_dict memory0 5 false true).2.1.status
       = "working" ∧
     (assign_task c10Agent c10Task.to_dict memory0 5 false true).2.1.current_task
       = some c10Task.to_dict) ∧
    ((assign_tasks { agents := [("n1", c10Agent)], task_queue := [("tk", c10Task)] }
        memory0 5 (fun _ => false) (fun _ => true)).1 = 0 ∧
     (assign_tasks { agents := [("n1", c10Agent)], task_queue := [("tk", c10Task)] }
        memory0 5 (fun _ => false) (fun _ => true)).2.1.task_queue
       = [("tk", c10Task)] ∧
     (assign_tasks { agents := [("n1", c10Agent)], task_queue := [("tk", c10Task)] }
        memory0 5 (fun _ => false) (fun _ => true)).2.1.agents =
       [("n1", busyWith c10Agent c10Task.to_dict)] ∧
     c10Task.status = "pending") :=
  ⟨(C10_ws_failure_agent_busy_queue_pending c10Agent memory0 5 rfl).1
     c10Task.to_dict (by decide),
   (C10_ws_failure_agent_busy_queue_pending c10Agent memory0 5 rfl).2
     "n1" [("tk", c10Task)] c10Task (by decide)⟩

theorem foldl_preserve {β γ : Type} (f : β → γ → β) (P : β → Prop) (l : List γ)
    (b : β) (hb : P b) (hstep : ∀ b' c, P b' → P (f b' c)) : P (l.foldl f b) := by
  induction l generalizing b with
  | nil => exact hb
  | cons c rest ih => exact ih (f b c) (hstep b c hb)

theorem dictGet_mem {α : Type} (l : List (String × α)) (k : String) (v : α)
    (h : dictGet l k = some v) : (k, v) ∈ l := by
  induction l with
  | nil => cases h
  | cons p tl ih =>
    by_cases hp : p.1 = k
    · rw [dictGet, if_pos hp] at h
      rw [Option.some.injEq] at h
      have hpe : p = (k, v) := Prod.ext_iff.2 ⟨hp, h⟩
      exact List.mem_cons.2 (Or.inl hpe.symm)
    · rw [dictGet, if_neg hp] at h
      exact List.mem_cons_of_mem p (ih h)

theorem dictGet_of_mem_nodup {α : Type} (l : List (String × α)) (k : String) (v : α)
    (hm : (k, v) ∈ l) (hnd : (l.map Prod.fst).Nodup) : dictGet l k = some v := by
  induction l with
  | nil => cases hm
  | cons p tl ih =>
    rw [List.map_cons, List.nodup_cons] at hnd
    rcases List.mem_cons.1 hm with he | hm'
    · rw [← he]
      simp [dictGet]
    · by_cases hp : p.1 = k
      · exfalso
        have hk : k ∈ tl.map Prod.fst := List.mem_map_of_mem Prod.fst hm'
        rw [hp] at hnd
        exact hnd.1 hk
      · rw [dictGet, if_neg hp]
        exact ih hm' hnd.2

theorem mem_dictSet {α : Type} (l : List (String × α)) (k : String) (v : α)
    (p : String × α) (hp : p ∈ dictSet l k v) : p ∈ l ∨ p = (k, v) := by
  induction l with
  | nil =>
    rw [dictSet] at hp
    rcases List.mem_cons.1 hp with he | he
    · exact Or.inr he
    · cases he
  | cons q tl ih =>
    by_cases hq : q.1 = k
    · rw [dictSet, if_pos hq] at hp
      rcases List.mem_cons.1 hp with he | he
      · right
        rw [he, hq]
      · exact Or.inl (List.mem_cons_of_mem q he)
    · rw [dictSet, if_neg hq] at hp
      rcases List.mem_cons.1 hp with he | he
      · exact Or.inl (he ▸ List.mem_cons_self q tl)
      · rcases ih he with h1 | h1
        · exact Or.inl (List.mem_cons_of_mem q h1)
        · exact Or.inr h1

/-- Every entry of the queue dict is stored under its own task ID (true
of every state the orchestrator can construct, since add_task keys a task
by its ID and the orchestrator's updates never touch the id field). -/
def WellKeyed (q : TaskQueue) : Prop := ∀ p ∈ q, p.2.id = p.1

/-- The queue dict has no duplicate keys (true of every Python dict). -/
def NodupKeys (q : TaskQueue) : Prop := (q.map Prod.fst).Nodup

/-- The task stored under tid has a terminal status. -/
def TerminalAt (q : TaskQueue) (tid : String) : Prop :=
  ∃ t, dictGet q tid = some t ∧ (t.status = "completed" ∨ t.status = "failed")

theorem TerminalAt_update_terminal (q : TaskQueue) (tid task_id : String)
    (u : TaskUpdates) (hu : u.status = some "completed" ∨ u.status = some "failed")
    (h : TerminalAt q tid) : TerminalAt (update_task q task_id u).2 tid := by
  obtain ⟨t, ht, hterm⟩ := h
  by_cases he : task_id = tid
  · subst he
    refine ⟨apply_updates t u, dictGet_update_task_self q task_id u t ht, ?_⟩
    rcases hu with h | h
    · left; simp [apply_updates, h]
    · right; simp [apply_updates, h]
  · exact ⟨t, by
      rw [dictGet_update_task_other q task_id tid u (fun hh => he hh.symm)]
      exact ht, hterm⟩

theorem update_task_presence (q : TaskQueue) (task_id : String) (u : TaskUpdates)
    (k : String) (h : dictGet q k ≠ none) :
    dictGet (update_task q task_id u).2 k ≠ none := by
  by_cases he : k = task_id
  · subst he
    cases hq : dictGet q k with
    | none => exact absurd hq h
    | some t =>
      rw [dictGet_update_task_self q k u t hq]
      simp
  · rw [dictGet_update_task_other q task_id k u he]
    exact h

theorem WellKeyed_update (q : TaskQueue) (task_id : String) (u : TaskUpdates)
    (hid : u.id = none) (hwk : WellKeyed q) :
    WellKeyed (update_task q task_id u).2 := by
  cases hq : dictGet q task_id with
  | none =>
    rw [update_task_not_found q task_id u hq]
    exact hwk
  | some t =>
    rw [update_task_found q task_id u t hq]
    intro p hp
    rcases mem_dictSet q task_id (apply_updates t u) p hp with h1 | h1
    · exact hwk p h1
    · rw [h1]
      have hmem := dictGet_mem q task_id t hq
      have : t.id = task_id := hwk (task_id, t) hmem
      simp [apply_updates, hid, this]

theorem NodupKeys_update (q : TaskQueue) (task_id : String) (u : TaskUpdates)
    (h : NodupKeys q) : NodupKeys (update_task q task_id u).2 := by
  rw [NodupKeys, update_task_keys]
  exact h

theorem handle_completed_task_agents (o : Orchestrator) (m : Memory)
    (task_id : String) (p : Progress) (now : Nat) :
    (handle_completed_task o m task_id p now).1.agents = o.agents := rfl

theorem handle_failed_task_agents (o : Orchestrator) (m : Memory)
    (task_id : String) (p : Progress) (now : Nat) :
    (handle_failed_task o m task_id p now).1.agents = o.agents := rfl

theorem handle_completed_task_queue (o : Orchestrator) (m : Memory)
    (task_id : String) (p : Progress) (now : Nat) :
    (handle_completed_task o m task_id p now).1.task_queue =
      (update_task o.task_queue task_id
        { status := some "completed", result := some (some p) }).2 := rfl

theorem handle_failed_task_queue (o : Orchestrator) (m : Memory)
    (task_id : String) (p : Progress) (now : Nat) :
    (handle_failed_task o m task_id p now).1.task_queue =
      (update_task o.task_queue task_id
        { status := some "failed", result := some (some p) }).2 := rfl

theorem handle_completed_task_world_progress (o : Orchestrator) (m : Memory)
    (task_id : String) (p : Progress) (now : Nat) :
    (handle_completed_task o m task_id p now).2.world_progress =
      m.world_progress := by
  unfold handle_completed_task
  cases hd : dictGet m.long_term ("task:" ++ task_id) <;> simp [hd]

theorem handle_failed_task_world_progress (o : Orchestrator) (m : Memory)
    (task_id : String) (p : Progress) (now : Nat) :
    (handle_failed_task o m task_id p now).2.world_progress =
      m.world_progress := by
  unfold handle_failed_task
  cases hd : dictGet m.long_term ("task:" ++ task_id) <;> simp [hd]

theorem monitor_step_cases (now : Nat) (st : Orchestrator × Memory)
    (entry : String × Agent) :
    monitor_step now st entry = st ∨
    ∃ ct pr, entry.2.status = "working" ∧ entry.2.current_task = some ct ∧
      dictGet st.2.world_progress ("task_progress:" ++ ct.id) = some pr ∧
      ((pr.status = "completed" ∧
         monitor_step now st entry = handle_completed_task st.1 st.2 ct.id pr now) ∨
       (pr.status = "failed" ∧
         monitor_step now st entry = handle_failed_task st.1 st.2 ct.id pr now)) := by
  by_cases hbw : (entry.2.status != "working") = true
  · left
    unfold monitor_step
    dsimp only
    rw [if_pos hbw]
  · have hw : entry.2.status = "working" := by
      simpa using hbw
    cases hct : entry.2.current_task with
    | none =>
      left
      unfold monitor_step
      dsimp only
      rw [if_neg hbw, hct]
    | some ct =>
      cases hpr : dictGet st.2.world_progress ("task_progress:" ++ ct.id) with
      | none =>
        left
        unfold monitor_step
        dsimp only
        rw [if_neg hbw, hct]
        dsimp only
        rw [hpr]
      | some pr =>
        have hred : monitor_step now st entry =
            (if (pr.status == "completed") = true then
               handle_completed_task st.1 st.2 ct.id pr now
             else if (pr.status == "failed") = true then
               handle_failed_task st.1 st.2 ct.id pr now
             else st) := by
          unfold monitor_step
          dsimp only
          rw [if_neg hbw, hct]
          dsimp only
          rw [hpr]
        by_cases hc : (pr.status == "completed") = true
        · exact Or.inr ⟨ct, pr, hw, rfl, hpr,
            Or.inl ⟨beq_iff_eq.1 hc, by rw [hred, if_pos hc]⟩⟩
        · by_cases hf : (pr.status == "failed") = true
          · exact Or.inr ⟨ct, pr, hw, rfl, hpr,
              Or.inr ⟨beq_iff_eq.1 hf, by rw [hred, if_neg hc, if_pos hf]⟩⟩
          · left
            rw [hred, if_neg hc, if_neg hf]

theorem monitor_step_fires (now : Nat) (st : Orchestrator × Memory)
    (aid : String) (a : Agent) (ct : TaskDict) (p : Progress)
    (hw : a.status = "working") (hct : a.current_task = some ct)
    (hwp : dictGet st.2.world_progress ("task_progress:" ++ ct.id) = some p)
    (hterm : p.status = "completed" ∨ p.status = "failed") :
    monitor_step now st (aid, a) =
      if p.status == "completed" then handle_completed_task st.1 st.2 ct.id p now
      else handle_failed_task st.1 st.2 ct.id p now := by
  unfold monitor_step
  dsimp only
  rw [hw]
  rw [if_neg (by simp : ¬ (("working" != "working") = true))]
  rw [hct]
  dsimp only
  rw [hwp]
  dsimp only
  rcases hterm with hst | hst
  · rw [hst]
    simp
  · rw [hst]
    simp

theorem monitor_progress_agents (o : Orchestrator) (m : Memory) (now : Nat) :
    (monitor_progress o m now).1.agents = o.agents := by
  unfold monitor_progress
  refine foldl_preserve (monitor_step now) (fun st => st.1.agents = o.agents)
    o.agents (o, m) rfl ?_
  intro st entry h
  rcases monitor_step_cases now st entry with hc | ⟨ct, pr, -, -, -, hbr⟩
  · rw [hc]; exact h
  · rcases hbr with ⟨-, heq⟩ | ⟨-, heq⟩
    · rw [heq, handle_completed_task_agents]; exact h
    · rw [heq, handle_failed_task_agents]; exact h

theorem monitor_progress_terminal (o : Orchestrator) (m : Memory) (now : Nat)
    (tid : String) (h : TerminalAt o.task_queue tid) :
    TerminalAt (monitor_progress o m now).1.task_queue tid := by
  unfold monitor_progress
  refine foldl_preserve (monitor_step now) (fun st => TerminalAt st.1.task_queue tid)
    o.agents (o, m) h ?_
  intro st entry hst
  rcases monitor_step_cases now st entry with hc | ⟨ct, pr, -, -, -, hbr⟩
  · rw [hc]; exact hst
  · rcases hbr with ⟨-, heq⟩ | ⟨-, heq⟩
    · rw [heq, TerminalAt, handle_completed_task_queue]
      exact TerminalAt_update_terminal st.1.task_queue tid ct.id _ (Or.inl rfl) hst
    · rw [heq, TerminalAt, handle_failed_task_queue]
      exact TerminalAt_update_terminal st.1.task_queue tid ct.id _ (Or.inr rfl) hst

theorem assign_step_queue_cases (now : Nat) (stf wsf : String → Bool)
    (acc : Nat × Orchestrator × Memory) (entry : String × Agent) :
    (assign_step now stf wsf acc entry).2.1.task_queue = acc.2.1.task_queue ∨
    ∃ task, get_next_task acc.2.1.task_queue entry.2.capabilities = some task ∧
      (assign_step now stf wsf acc entry).2.1.task_queue =
        (update_task acc.2.1.task_queue task.id
          { status := some "assigned", assigned_to := some (some entry.2.id) }).2 := by
  by_cases hbi : (entry.2.status != "idle") = true
  · left
    unfold assign_step
    dsimp only
    rw [if_pos hbi]
  · cases hgn : get_next_task acc.2.1.task_queue entry.2.capabilities with
    | none =>
      left
      unfold assign_step
      dsimp only
      rw [if_neg hbi]
      rw [hgn]
    | some task =>
      have hred : assign_step now stf wsf acc entry =
          (let r := assign_task entry.2 task.to_dict acc.2.2 now
             (stf entry.1) (wsf entry.1)
           let o1 := { acc.2.1 with agents := dictSet acc.2.1.agents entry.1 r.2.1 }
           if r.1 then
             let uq := update_task o1.task_queue task.id
               { status := some "assigned", assigned_to := some (some entry.2.id) }
             (acc.1 + 1, { o1 with task_queue := uq.2 }, r.2.2)
           else (acc.1, o1, r.2.2)) := by
        unfold assign_step
        dsimp only
        rw [if_neg hbi]
        rw [hgn]
      rw [hred]
      dsimp only
      by_cases hr : (assign_task entry.2 task.to_dict acc.2.2 now
          (stf entry.1) (wsf entry.1)).1 = true
      · right
        refine ⟨task, rfl, ?_⟩
        rw [if_pos hr]
      · left
        rw [if_neg hr]

theorem C6_helper_pending_not_terminal (q : TaskQueue) (caps : List String)
    (task : Task) (tid : String) (t : Task)
    (hwk : WellKeyed q) (hnd : NodupKeys q)
    (hgn : get_next_task q caps = some task)
    (ht : dictGet q tid = some t)
    (hterm : t.status = "completed" ∨ t.status = "failed") :
    task.id ≠ tid := by
  intro hid
  obtain ⟨hc, hmem⟩ := get_next_task_isCandidate q caps task hgn
  obtain ⟨p, hpq, hpv⟩ := List.mem_map.1 hmem
  have hkey : p.1 = task.id := by
    rw [← hwk p hpq, hpv]
  have hpe : p = (task.id, task) := Prod.ext_iff.2 ⟨hkey, hpv⟩
  have hget : dictGet q task.id = some task :=
    dictGet_of_mem_nodup q task.id task (hpe ▸ hpq) hnd
  rw [hid, ht, Option.some.injEq] at hget
  have hpend : task.status = "pending" :=
    ((isCandidate_iff q caps task).1 hc).1
  rw [hget] at hterm
  rw [hpend] at hterm
  rcases hterm with h | h
  · exact absurd h (by decide)
  · exact absurd h (by decide)

theorem assign_tasks_terminal (o : Orchestrator) (m : Memory) (now : Nat)
    (stf wsf : String → Bool) (tid : String)
    (hwk : WellKeyed o.task_queue) (hnd : NodupKeys o.task_queue)
    (ht : TerminalAt o.task_queue tid) :
    TerminalAt (assign_tasks o m now stf wsf).2.1.task_queue tid := by
  unfold assign_tasks
  refine (foldl_preserve (assign_step now stf wsf)
    (fun acc => TerminalAt acc.2.1.task_queue tid ∧ WellKeyed acc.2.1.task_queue ∧
      NodupKeys acc.2.1.task_queue)
    o.agents (0, o, m) ⟨ht, hwk, hnd⟩ ?_).1
  intro acc entry hacc
  obtain ⟨hta, hwka, hnda⟩ := hacc
  rcases assign_step_queue_cases now stf wsf acc entry with hc | ⟨task, hgn, hc⟩
  · rw [hc]
    exact ⟨hta, hwka, hnda⟩
  · obtain ⟨t, htg, hterm⟩ := hta
    have hne : task.id ≠ tid :=
      C6_helper_pending_not_terminal acc.2.1.task_queue entry.2.capabilities
        task tid t hwka hnda hgn htg hterm
    rw [hc]
    refine ⟨⟨t, ?_, hterm⟩, ?_, ?_⟩
    · rw [dictGet_update_task_other _ _ _ _ (fun hh => hne hh.symm)]
      exact htg
    · exact WellKeyed_update acc.2.1.task_queue task.id _ rfl hwka
    · exact NodupKeys_update acc.2.1.task_queue task.id _ hnda

/-- C6 corrected: under the four orchestrator operations, a task whose
stored status is terminal (completed or failed) always keeps a terminal
status — assign_tasks only ever marks a pending task assigned, and the
handlers only ever write terminal statuses — but, as the counterexample
shows, the terminal status itself can flip between completed and failed,
so only membership in the terminal set is invariant. -/
theorem C6_amended_terminal_set_preserved (o : Orchestrator) (m : Memory)
    (now : Nat) (stf wsf : String → Bool) (tid : String)
    (hwk : WellKeyed o.task_queue) (hnd : NodupKeys o.task_queue)
    (ht : TerminalAt o.task_queue tid) :
    TerminalAt (assign_tasks o m now stf wsf).2.1.task_queue tid ∧
    TerminalAt (monitor_progress o m now).1.task_queue tid ∧
    (∀ task_id p, TerminalAt (handle_completed_task o m task_id p now).1.task_queue tid) ∧
    (∀ task_id p, TerminalAt (handle_failed_task o m task_id p now).1.task_queue tid) := by
  refine ⟨assign_tasks_terminal o m now stf wsf tid hwk hnd ht,
    monitor_progress_terminal o m now tid ht, ?_, ?_⟩
  · intro task_id p
    rw [TerminalAt, handle_completed_task_queue]
    exact TerminalAt_update_terminal o.task_queue tid task_id _ (Or.inl rfl) ht
  · intro task_id p
    rw [TerminalAt, handle_failed_task_queue]
    exact TerminalAt_update_terminal o.task_queue tid task_id _ (Or.inr rfl) ht

/-- A completed task for the C6 amended witness. -/
def c6Done : Task :=
  { id := "d1", description := "done", requirements := [],
    required_capabilities := [], priority := 1, dependencies := [],
    context := [], status := "completed", created_at := 0,
    assigned_to := some "a1", result := none }

/-- An orchestrator state holding only the completed task. -/
def c6DoneOrch : Orchestrator := { agents := [], task_queue := [("d1", c6Done)] }

/-- Witness for the amended C6 at a concrete terminal state. -/
theorem C6_amended_witness :
    TerminalAt (assign_tasks c6DoneOrch memory0 3 (fun _ => false)
      (fun _ => false)).2.1.task_queue "d1" ∧
    TerminalAt (monitor_progress c6DoneOrch memory0 3).1.task_queue "d1" ∧
    (∀ task_id p, TerminalAt
      (handle_completed_task c6DoneOrch memory0 task_id p 3).1.task_queue "d1") ∧
    (∀ task_id p, TerminalAt
      (handle_failed_task c6DoneOrch memory0 task_id p 3).1.task_queue "d1") :=
  C6_amended_terminal_set_preserved c6DoneOrch memory0 3 (fun _ => false)
    (fun _ => false) "d1"
    (by
      intro p hp
      have hpe : p = ("d1", c6Done) := by simpa [c6DoneOrch] using hp
      rw [hpe]
      rfl)
    (by simp [NodupKeys, c6DoneOrch])
    ⟨c6Done, rfl, Or.inl rfl⟩

/-- C3 corrected: when a working agent's current task has a terminal
shared-state progress record, the monitor step routes the record to the
matching handler and the canonical task takes the record's terminal
status; but the agent is NOT freed — monitor_progress and the handlers
never write to any agent, so the registry after the monitor step is
exactly the registry before it (the agent keeps status working and its
current task; only the agent's own report_progress frees it). -/
theorem C3_amended_monitor_transitions_task_not_agent
    (o : Orchestrator) (m : Memory) (now : Nat) (aid : String) (a : Agent)
    (ct : TaskDict) (p : Progress)
    (hmem : (aid, a) ∈ o.agents) (hw : a.status = "working")
    (hct : a.current_task = some ct)
    (hwp : dictGet m.world_progress ("task_progress:" ++ ct.id) = some p)
    (hterm : p.status = "completed" ∨ p.status = "failed")
    (hq : dictGet o.task_queue ct.id ≠ none) :
    (monitor_progress o m now).1.agents = o.agents ∧
    (dictGet (monitor_progress o m now).1.task_queue ct.id).map Task.status
      = some p.status := by
  refine ⟨monitor_progress_agents o m now, ?_⟩
  obtain ⟨l1, l2, hsplit⟩ := List.append_of_mem hmem
  unfold monitor_progress
  rw [hsplit, List.foldl_append, List.foldl_cons]
  have h1 : (List.foldl (monitor_step now) (o, m) l1).2.world_progress
        = m.world_progress ∧
      dictGet (List.foldl (monitor_step now) (o, m) l1).1.task_queue ct.id
        ≠ none := by
    refine foldl_preserve (monitor_step now)
      (fun st => st.2.world_progress = m.world_progress ∧
        dictGet st.1.task_queue ct.id ≠ none) l1 (o, m) ⟨rfl, hq⟩ ?_
    intro st entry hst
    obtain ⟨hstw, hstq⟩ := hst
    rcases monitor_step_cases now st entry with hc | ⟨ct', pr, -, -, -, hbr⟩
    · rw [hc]; exact ⟨hstw, hstq⟩
    · rcases hbr with ⟨-, heq⟩ | ⟨-, heq⟩
      · rw [heq]
        refine ⟨by rw [handle_completed_task_world_progress]; exact hstw, ?_⟩
        rw [handle_completed_task_queue]
        exact update_task_presence _ _ _ _ hstq
      · rw [heq]
        refine ⟨by rw [handle_failed_task_world_progress]; exact hstw, ?_⟩
        rw [handle_failed_task_queue]
        exact update_task_presence _ _ _ _ hstq
  have hfire := monitor_step_fires now (List.foldl (monitor_step now) (o, m) l1)
    aid a ct p hw hct (by rw [h1.1]; exact hwp) hterm
  have h2 : (monitor_step now (List.foldl (monitor_step now) (o, m) l1)
        (aid, a)).2.world_progress = m.world_progress ∧
      (dictGet (monitor_step now (List.foldl (monitor_step now) (o, m) l1)
        (aid, a)).1.task_queue ct.id).map Task.status = some p.status := by
    rw [hfire]
    cases hq0 : dictGet (List.foldl (monitor_step now) (o, m) l1).1.task_queue ct.id
      with
    | none => exact absurd hq0 h1.2
    | some t0 =>
      rcases hterm with hs | hs
      · rw [if_pos (by simp [hs])]
        refine ⟨by rw [handle_completed_task_world_progress]; exact h1.1, ?_⟩
        rw [handle_completed_task_queue]
        rw [dictGet_update_task_self _ _ _ _ hq0]
        simp [apply_updates, hs]
      · rw [if_neg (by simp [hs]), ]
        refine ⟨by rw [handle_failed_task_world_progress]; exact h1.1, ?_⟩
        rw [handle_failed_task_queue]
        rw [dictGet_update_task_self _ _ _ _ hq0]
        simp [apply_updates, hs]
  refine (foldl_preserve (monitor_step now)
    (fun st => st.2.world_progress = m.world_progress ∧
      (dictGet st.1.task_queue ct.id).map Task.status = some p.status) l2
    (monitor_step now (List.foldl (monitor_step now) (o, m) l1) (aid, a))
    h2 ?_).2
  intro st entry hst
  obtain ⟨hstw, hstq⟩ := hst
  rcases monitor_step_cases now st entry with hc | ⟨ct', pr, -, -, hpr', hbr⟩
  · rw [hc]; exact ⟨hstw, hstq⟩
  · by_cases hid : ct'.id = ct.id
    · have hpp : p = pr := by
        have hpr2 := hpr'
        rw [hid, hstw, hwp, Option.some.injEq] at hpr2
        exact hpr2
      cases hq0 : dictGet st.1.task_queue ct.id with
      | none =>
        rw [hq0] at hstq
        cases hstq
      | some t0 =>
        rcases hbr with ⟨hprc, heq⟩ | ⟨hprf, heq⟩
        · rw [heq]
          refine ⟨by rw [handle_completed_task_world_progress]; exact hstw, ?_⟩
          rw [handle_completed_task_queue, hid]
          rw [dictGet_update_task_self _ _ _ _ hq0]
          simp [apply_updates, hpp, hprc]
        · rw [heq]
          refine ⟨by rw [handle_failed_task_world_progress]; exact hstw, ?_⟩
          rw [handle_failed_task_queue, hid]
          rw [dictGet_update_task_self _ _ _ _ hq0]
          simp [apply_updates, hpp, hprf]
    · rcases hbr with ⟨-, heq⟩ | ⟨-, heq⟩
      · rw [heq]
        refine ⟨by rw [handle_completed_task_world_progress]; exact hstw, ?_⟩
        rw [handle_completed_task_queue]
        rw [dictGet_update_task_other _ _ _ _ (fun hh => hid hh.symm)]
        exact hstq
      · rw [heq]
        refine ⟨by rw [handle_failed_task_world_progress]; exact hstw, ?_⟩
        rw [handle_failed_task_queue]
        rw [dictGet_update_task_other _ _ _ _ (fun hh => hid hh.symm)]
        exact hstq

/-- The task dict held by the stuck working agent in the C3 witness. -/
def c3wCT : TaskDict :=
  Task.to_dict
    { id := "t1", description := "demo", requirements := [],
      required_capabilities := [], priority := 1, dependencies := [],
      context := [], status := "pending", created_at := 0,
      assigned_to := none, result := none }

/-- A working agent holding c3wCT. -/
def c3wAgent : Agent :=
  { name := "a", id := "a1", capabilities := [],
    current_task := some c3wCT, status := "working" }

/-- The canonical queue task for the C3 witness. -/
def c3wTask : Task :=
  { id := "t1", description := "demo", requirements := [],
    required_capabilities := [], priority := 1, dependencies := [],
    context := [], status := "assigned", created_at := 0,
    assigned_to := some "a1", result := none }

/-- The orchestrator state for the C3 witness. -/
def c3wOrch : Orchestrator :=
  { agents := [("a1", c3wAgent)], task_queue := [("t1", c3wTask)] }

/-- A terminal progress record for the C3 witness. -/
def c3wP : Progress :=
  { status := "completed", output := some "ok", message := none,
    reported_at := some 2, agent := some "a1" }

/-- The memory holding the terminal record for c3wCT. -/
def c3wMem : Memory :=
  { short_term := [], long_term := [],
    world_assignment := [], world_progress := [("task_progress:t1", c3wP)] }

/-- Witness for the amended C3 at a concrete stuck-agent state. -/
theorem C3_amended_witness :
    (monitor_progress c3wOrch c3wMem 9).1.agents = c3wOrch.agents ∧
    (dictGet (monitor_progress c3wOrch c3wMem 9).1.task_queue c3wCT.id).map
      Task.status = some c3wP.status :=
  C3_amended_monitor_transitions_task_not_agent c3wOrch c3wMem 9 "a1" c3wAgent
    c3wCT c3wP (by decide) rfl rfl (by decide) (Or.inl rfl) (by decide)

/-- C3 counterexample run, step 1: create task t1 (uuid t1, clock 0). -/
def c3s1 : String × Orchestrator × Memory :=
  create_task orchestrator0 memory0 "demo" [] none 1 none none "t1" 0

/-- C3 counterexample run: agent alpha (id alpha_u1). -/
def c3Alpha : Agent := mkAgent "alpha" [] "u1"

/-- C3 counterexample run: agent beta (id beta_u2). -/
def c3Beta : Agent := mkAgent "beta" [] "u2"

/-- C3 counterexample run, step 2: register alpha then beta. -/
def c3o2 : Orchestrator := register_agent (register_agent c3s1.2.1 c3Alpha) c3Beta

/-- C3 counterexample run, step 3: one assignment cycle in which
update_world_state raises inside alpha's assign_task (spec error category
c, collaborator failure) and succeeds for beta: alpha ends up working on
t1 while t1 stays pending, then beta is assigned t1. -/
def c3s3 : Nat × Orchestrator × Memory :=
  assign_tasks c3o2 c3s1.2.2 1 (fun _ => false) (fun aid => aid == "alpha_u1")

/-- The terminal progress payload beta reports. -/
def c3done : Progress :=
  { status := "completed", output := some "ok", message := none,
    reported_at := none, agent := none }

/-- C3 counterexample run, step 4: beta reports completion — the record
lands in world state under task_progress:t1 and beta frees itself. -/
def c3s4 : Orchestrator × Memory :=
  sys_report c3s3.2.1 c3s3.2.2 "beta_u2" c3done 2 false

/-- C3 counterexample run, step 5: the monitor step. -/
def c3s5 : Orchestrator × Memory := monitor_progress c3s4.1 c3s4.2 3

/-- C3 counterexample: in the reachable state c3s4 the working agent
alpha_u1 holds task t1 whose shared progress record is terminal
(completed); the monitor step transitions t1 to completed but does NOT
free the agent — after monitor_progress, alpha_u1 still has status
working and a non-null current task, contradicting the claim that the
monitor step frees the agent. -/
theorem C3_counterexample :
    (dictGet c3s4.1.agents "alpha_u1").map Agent.status = some "working" ∧
    ((dictGet c3s4.1.agents "alpha_u1").bind Agent.current_task).map TaskDict.id
      = some "t1" ∧
    (dictGet c3s4.2.world_progress "task_progress:t1").map Progress.status
      = some "completed" ∧
    (dictGet c3s5.1.task_queue "t1").map Task.status = some "completed" ∧
    (dictGet c3s5.1.agents "alpha_u1").map Agent.status = some "working" ∧
    ((dictGet c3s5.1.agents "alpha_u1").bind Agent.current_task).isSome = true := by
  decide

/-- C6 counterexample run, step 1: create task t1. -/
def c6s1 : String × Orchestrator × Memory :=
  create_task orchestrator0 memory0 "demo" [] none 1 none none "t1" 0

/-- C6 counterexample run: agent ada (id ada_u1). -/
def c6Ada : Agent := mkAgent "ada" [] "u1"

/-- C6 counterexample run: agent bob (id bob_u2). -/
def c6Bob : Agent := mkAgent "bob" [] "u2"

/-- C6 counterexample run: agent cyd (id cyd_u3). -/
def c6Cyd : Agent := mkAgent "cyd" [] "u3"

/-- C6 counterexample run, step 2: register ada, bob, cyd. -/
def c6o2 : Orchestrator :=
  register_agent (register_agent (register_agent c6s1.2.1 c6Ada) c6Bob) c6Cyd

/-- C6 counterexample run, step 3: one assignment cycle in which
update_world_state raises inside assign_task for ada and bob
(collaborator failures, spec error category c) and succeeds for cyd: ada
and bob both end up working on t1 while t1 stays pending each time, then
cyd is assigned t1 and the queue marks it assigned. -/
def c6s3 : Nat × Orchestrator × Memory :=
  assign_tasks c6o2 c6s1.2.2 1 (fun _ => false) (fun aid => aid != "cyd_u3")

/-- The completion payload cyd reports. -/
def c6pc : Progress :=
  { status := "completed", output := some "ok", message := none,
    reported_at := none, agent := none }

/-- C6 counterexample run, step 4: cyd reports completion and frees
itself; the record task_progress:t1 now says completed. -/
def c6s4 : Orchestrator × Memory :=
  sys_report c6s3.2.1 c6s3.2.2 "cyd_u3" c6pc 2 false

/-- C6 counterexample run, step 5: monitor — ada and bob are still
working on t1, so the completed record is routed to the completion
handler and t1 reaches the terminal status completed (ada and bob stay
working: the monitor never frees agents). -/
def c6s5 : Orchestrator × Memory := monitor_progress c6s4.1 c6s4.2 3

/-- The failure payload ada reports. -/
def c6pf : Progress :=
  { status := "failed", output := none, message := some "boom",
    reported_at := none, agent := none }

/-- C6 counterexample run, step 6: ada, still holding t1, reports a
failure — report_progress overwrites task_progress:t1 with a failed
record and frees ada. -/
def c6s6 : Orchestrator × Memory :=
  sys_report c6s5.1 c6s5.2 "ada_u1" c6pf 4 false

/-- C6 counterexample run, step 7: monitor again — bob is still working
on t1, reads the failed record, and handle_failed_task overwrites the
terminal status completed with failed. -/
def c6s7 : Orchestrator × Memory := monitor_progress c6s6.1 c6s6.2 5

/-- C6 counterexample: in this reachable execution of the orchestration
cycle, task t1 reaches the terminal status completed after the first
monitor step (state c6s5) and is then moved OUT of it to failed by a
subsequent monitor_progress (state c6s7) — a subsequent orchestrator
operation changed the status of a task that had reached a terminal
state, so the claim is false. -/
theorem C6_counterexample :
    (dictGet c6s5.1.task_queue "t1").map Task.status = some "completed" ∧
    (dictGet c6s7.1.task_queue "t1").map Task.status = some "failed" := by
  decide

end ADA
